import Mathlib

/-!
Verification of the srsRAN PUCCH resource manager, the UE DRX active-time
controller, and the UHD TX-stream finite state machine, against the
repository's natural-language specification.

The PUCCH resource manager and the DRX controller are declared in
`lib/scheduler/pucch_scheduling/pucch_resource_manager.h` and
`lib/scheduler/ue_context/ue_drx_controller.h`; their member-function
bodies (the `.cpp` translation units) are not part of the source tree
available here, so those bodies are modelled from the specification's
operation contracts, faithfully to the declarations and doc comments of
the headers.  The TX-stream FSM is fully inline in
`lib/radio/uhd/radio_uhd_tx_stream_fsm.h` and is embedded directly from
that source.
-/

set_option maxHeartbeats 1000000
set_option maxRecDepth 100000

namespace srsran

/-! ## Data model: PUCCH resource manager (pucch_resource_manager.h) -/

/-- PUCCH formats used by the resource manager dispatch (F1 for HARQ/SR,
F2 for HARQ/CSI), from the header's format parameter `pucch_format`. -/
inductive pucch_format where
  | FORMAT_1
  | FORMAT_2
deriving DecidableEq, Repr

/-- Per-resource tracker cell, from `pucch_resource_manager.h` lines
149-152: an RNTI (terminal id) and the format it uses.  The C++ struct
holds a plain `rnti_t` where `rnti_t::INVALID_RNTI` marks a free cell;
here `rnti = none` models that sentinel. -/
structure resource_tracker where
  rnti   : Option Nat
  format : pucch_format
deriving DecidableEq, Repr

/-- A free tracker cell (rnti_t::INVALID_RNTI); the format field of a free
cell carries no information. -/
def free_tracker : resource_tracker := { rnti := none, format := pucch_format.FORMAT_1 }

/-- Number of dedicated PUCCH resources trackable per slot
(`MAX_PUCCH_RESOURCES` in the header, line 144). -/
def MAX_PUCCH_RESOURCES : Nat := 128

/-- Number of common PUCCH resources per slot: the number of possible
r_PUCCH values per TS 38.213 Section 9.2.1 (`MAX_COMMON_PUCCH_RESOURCES`,
header line 146). -/
def MAX_COMMON_PUCCH_RESOURCES : Nat := 16

/-- Maximum number of cell PUCCH F1 resources dedicated to SR
(`MAX_SR_PUCCH_RESOURCES`, header line 147). -/
def MAX_SR_PUCCH_RESOURCES : Nat := 4

/-- Modelled from the spec: the ring-buffer size
`RES_MANAGER_RING_BUFFER_SIZE` is derived in the header (line 134) from
`get_allocator_ring_size_gt_min(SCHEDULER_MAX_K0 + SCHEDULER_MAX_K1)`,
whose definition is not in the available source; the spec requires only
that it is at least the maximum forward scheduling horizon.  We fix a
concrete positive value; no theorem below depends on which one. -/
def RES_MANAGER_RING_BUFFER_SIZE : Nat := 20

/-- Per-slot ledger entry, from `pucch_resource_manager.h` lines 157-161:
a fixed-size occupancy bitmap for common resources and a fixed-size
tracker array for dedicated resources.  The C++ `std::array`s become
lists whose lengths are stated as hypotheses where they matter. -/
structure rnti_pucch_res_id_slot_record where
  used_common_resources : List Bool
  ues_using_pucch_res   : List resource_tracker
deriving DecidableEq, Repr

/-- A fully unused ledger entry (all common resources available, all
tracker cells free), the state `slot_indication` resets an entry to. -/
def empty_slot_record : rnti_pucch_res_id_slot_record :=
  { used_common_resources := List.replicate MAX_COMMON_PUCCH_RESOURCES false
    ues_using_pucch_res   := List.replicate MAX_PUCCH_RESOURCES free_tracker }

/-- Modelled from the spec: the slice of `pucch_config` the manager
consults.  By header assumption (v) the F1 and F2 HARQ resource groups
occupy contiguous `pucch-ResourceId` ranges inside the tracker array
(1-to-1 between resource indicator and position in the resource set,
header lines 140-143), so each group is a start index plus a count; the
UE's single SR resource (header assumption (ii)) is one id. -/
structure pucch_config where
  f1_start  : Nat
  f1_count  : Nat
  f2_start  : Nat
  f2_count  : Nat
  sr_res_id : Nat
deriving DecidableEq, Repr

/-- Modelled from the spec: the slice of `ue_cell_configuration` the
manager consults for CSI: the id of the single cell-wide CSI PUCCH F2
resource (header assumption (iii)). -/
structure ue_cell_configuration where
  csi_res_id : Nat
deriving DecidableEq, Repr

/-- Start index of the HARQ resource group of a format in the tracker
array (resource set 0 for F1, set 1 for F2). -/
def group_start (cfg : pucch_config) : pucch_format → Nat
  | pucch_format.FORMAT_1 => cfg.f1_start
  | pucch_format.FORMAT_2 => cfg.f2_start

/-- Number of resources in the HARQ resource group of a format. -/
def group_count (cfg : pucch_config) : pucch_format → Nat
  | pucch_format.FORMAT_1 => cfg.f1_count
  | pucch_format.FORMAT_2 => cfg.f2_count

/-- Linear scan of the tracker cells at absolute indices
[start, start+count) for the first cell satisfying p; returns the
absolute index.  This is the shape of every lookup loop of the manager
(lowest-index-first, per the spec's allocation algorithm). -/
def scan_first (cells : List resource_tracker) (p : resource_tracker → Bool) :
    Nat → Nat → Option Nat
  | _,     0            => none
  | start, Nat.succ cnt =>
      if p (cells.getD start free_tracker) then some start
      else scan_first cells p (start + 1) cnt

/-- Whether a tracker cell is free (rnti_t::INVALID_RNTI). -/
def tracker_free (c : resource_tracker) : Bool := c.rnti = none

/-- Whether a tracker cell is bound to the given terminal. -/
def tracker_of (crnti : Nat) (c : resource_tracker) : Bool := c.rnti = some crnti

/-- Result container of the HARQ reservation calls, from the header lines
19-24: a descriptor (pointer to the resource configuration, modelled as
the optional pucch-ResourceId, with none for nullptr) and the PUCCH
resource indicator. -/
structure pucch_harq_resource_alloc_record where
  pucch_res           : Option Nat
  pucch_res_indicator : Nat
deriving DecidableEq, Repr

namespace rnti_pucch_res_id_slot_record

/-- Modelled from the spec: body of
`pucch_resource_manager::reserve_next_harq_res_available` (declared at
header lines 166-169; the defining .cpp is not in the tree) acting on one
slot's ledger entry: linear scan of the format's tracker group for the
lowest free index; if found, bind it to the terminal and return the
descriptor and the indicator (position inside the group); if the group is
exhausted return the none record and leave the entry untouched. -/
def reserve_next_harq_res_available (r : rnti_pucch_res_id_slot_record) (crnti : Nat)
    (cfg : pucch_config) (format : pucch_format) :
    rnti_pucch_res_id_slot_record × pucch_harq_resource_alloc_record :=
  match scan_first r.ues_using_pucch_res tracker_free (group_start cfg format)
      (group_count cfg format) with
  | some idx =>
      ({ r with ues_using_pucch_res :=
            r.ues_using_pucch_res.set idx { rnti := some crnti, format := format } },
       { pucch_res := some idx, pucch_res_indicator := idx - group_start cfg format })
  | none => (r, { pucch_res := none, pucch_res_indicator := 0 })

/-- Modelled from the spec: body of
`pucch_resource_manager::release_harq_resource` (header line 171) on one
slot's ledger entry: scan the format's tracker group for the terminal's
cell, clear it, and report whether one was found; not found is a normal
false, not an error. -/
def release_harq_resource (r : rnti_pucch_res_id_slot_record) (crnti : Nat)
    (cfg : pucch_config) (format : pucch_format) :
    rnti_pucch_res_id_slot_record × Bool :=
  match scan_first r.ues_using_pucch_res (tracker_of crnti) (group_start cfg format)
      (group_count cfg format) with
  | some idx =>
      ({ r with ues_using_pucch_res := r.ues_using_pucch_res.set idx free_tracker }, true)
  | none => (r, false)

/-- Modelled from the spec: body of
`pucch_resource_manager::fetch_pucch_res_indic` (header line 173) on one
slot's ledger entry: read-only scan of the format's tracker group for the
terminal's cell, returning the resource indicator, or the sentinel -1
when the terminal holds no assignment. -/
def fetch_pucch_res_indic (r : rnti_pucch_res_id_slot_record) (crnti : Nat)
    (cfg : pucch_config) (format : pucch_format) : Int :=
  match scan_first r.ues_using_pucch_res (tracker_of crnti) (group_start cfg format)
      (group_count cfg format) with
  | some idx => (idx - group_start cfg format : Nat)
  | none => -1

/-- Modelled from the spec: body of
`pucch_resource_manager::reserve_sr_res_available` (declared at header
line 88) on one slot's ledger entry: each UE is assigned exactly one of
the cell's SR PUCCH F1 resources (header assumption (ii)); if the UE's SR
cell is free, bind it and return its id, else return none (nullptr). -/
def reserve_sr_res_available (r : rnti_pucch_res_id_slot_record) (crnti : Nat)
    (cfg : pucch_config) : rnti_pucch_res_id_slot_record × Option Nat :=
  if tracker_free (r.ues_using_pucch_res.getD cfg.sr_res_id free_tracker) then
    let cell : resource_tracker := { rnti := some crnti, format := pucch_format.FORMAT_1 }
    ({ r with ues_using_pucch_res := r.ues_using_pucch_res.set cfg.sr_res_id cell },
     some cfg.sr_res_id)
  else (r, none)

/-- Modelled from the spec: body of
`pucch_resource_manager::release_sr_resource` (declared at header line
109) on one slot's ledger entry: clear the UE's SR tracker cell if it is
bound to this terminal; report whether an entry was found. -/
def release_sr_resource (r : rnti_pucch_res_id_slot_record) (crnti : Nat)
    (cfg : pucch_config) : rnti_pucch_res_id_slot_record × Bool :=
  if tracker_of crnti (r.ues_using_pucch_res.getD cfg.sr_res_id free_tracker) then
    ({ r with ues_using_pucch_res := r.ues_using_pucch_res.set cfg.sr_res_id free_tracker },
     true)
  else (r, false)

/-- Modelled from the spec: body of
`pucch_resource_manager::reserve_csi_resource` (declared at header line
82) on one slot's ledger entry: all UEs share the single cell CSI PUCCH
F2 resource (header assumption (iii)); bind it if free. -/
def reserve_csi_resource (r : rnti_pucch_res_id_slot_record) (crnti : Nat)
    (ue_cell_cfg : ue_cell_configuration) : rnti_pucch_res_id_slot_record × Option Nat :=
  if tracker_free (r.ues_using_pucch_res.getD ue_cell_cfg.csi_res_id free_tracker) then
    let cell : resource_tracker := { rnti := some crnti, format := pucch_format.FORMAT_2 }
    ({ r with ues_using_pucch_res := r.ues_using_pucch_res.set ue_cell_cfg.csi_res_id cell },
     some ue_cell_cfg.csi_res_id)
  else (r, none)

/-- Modelled from the spec: body of
`pucch_resource_manager::release_csi_resource` (declared at header line
116) on one slot's ledger entry: clear the CSI tracker cell if bound to
this terminal; report whether an entry was found. -/
def release_csi_resource (r : rnti_pucch_res_id_slot_record) (crnti : Nat)
    (ue_cell_cfg : ue_cell_configuration) : rnti_pucch_res_id_slot_record × Bool :=
  if tracker_of crnti (r.ues_using_pucch_res.getD ue_cell_cfg.csi_res_id free_tracker) then
    ({ r with ues_using_pucch_res :=
          r.ues_using_pucch_res.set ue_cell_cfg.csi_res_id free_tracker },
     true)
  else (r, false)

/-- Modelled from the spec: body of
`pucch_resource_manager::fetch_csi_pucch_res_config` (header line 129) on
one slot's ledger entry: read-only; returns the CSI resource id if bound
to this terminal, else none (nullptr). -/
def fetch_csi_pucch_res_config (r : rnti_pucch_res_id_slot_record) (crnti : Nat)
    (ue_cell_cfg : ue_cell_configuration) : Option Nat :=
  if tracker_of crnti (r.ues_using_pucch_res.getD ue_cell_cfg.csi_res_id free_tracker) then
    some ue_cell_cfg.csi_res_id
  else none

/-- Modelled from the spec: body of
`pucch_resource_manager::is_common_resource_available` (header line 46)
on one slot's ledger entry: bitmap query; available when the bit is not
set. -/
def is_common_resource_available (r : rnti_pucch_res_id_slot_record) (r_pucch : Nat) : Bool :=
  !(r.used_common_resources.getD r_pucch true)

/-- Modelled from the spec: body of
`pucch_resource_manager::reserve_common_resource` (header line 49) on one
slot's ledger entry: bitmap set; it performs no availability check of its
own (callers must check first), so a double reservation silently
overwrites the bit with the same value. -/
def reserve_common_resource (r : rnti_pucch_res_id_slot_record) (r_pucch : Nat) :
    rnti_pucch_res_id_slot_record :=
  { r with used_common_resources := r.used_common_resources.set r_pucch true }

end rnti_pucch_res_id_slot_record

/-! ## The manager: ring buffer of slot records -/

/-- The resource manager state, from the header lines 175-179: a ring
buffer of per-slot ledger entries, addressed by the slot number modulo
the ring size, plus the last slot_point passed to slot_indication.
Slot points are modelled as absolute Nat counters. -/
structure pucch_resource_manager where
  resource_slots : List rnti_pucch_res_id_slot_record
  last_sl_ind    : Nat
deriving DecidableEq, Repr

namespace pucch_resource_manager

/-- The manager produced by the constructor: every ring entry unused,
slot counter at zero. -/
def init : pucch_resource_manager :=
  { resource_slots := List.replicate RES_MANAGER_RING_BUFFER_SIZE empty_slot_record
    last_sl_ind := 0 }

/-- A slot argument is within the manager's valid window when it is not
before the current slot and within the ring size ahead of it (spec:
slot arguments outside the window are caller misuse). -/
def valid_slot (m : pucch_resource_manager) (sl : Nat) : Prop :=
  m.last_sl_ind ≤ sl ∧ sl < m.last_sl_ind + RES_MANAGER_RING_BUFFER_SIZE

/-- Ring position of a slot. -/
def ring_pos (sl : Nat) : Nat := sl % RES_MANAGER_RING_BUFFER_SIZE

/-- Modelled from the spec: body of
`pucch_resource_manager::get_slot_resource_counter` (header line 164):
the ring entry addressed by the slot modulo the ring size. -/
def get_slot_resource_counter (m : pucch_resource_manager) (sl : Nat) :
    rnti_pucch_res_id_slot_record :=
  m.resource_slots.getD (ring_pos sl) empty_slot_record

/-- Replace the ring entry addressed by a slot. -/
def set_slot_resource_counter (m : pucch_resource_manager) (sl : Nat)
    (r : rnti_pucch_res_id_slot_record) : pucch_resource_manager :=
  { m with resource_slots := m.resource_slots.set (ring_pos sl) r }

/-- Modelled from the spec: body of
`pucch_resource_manager::slot_indication` (declared at header line 43):
records the new current slot and clears exactly the ledger entry being
recycled — the ring position freed by the window sliding forward, which
is the position of slot_tx - 1.  The external contract (spec section 6)
is that the caller passes last_sl_ind + 1. -/
def slot_indication (m : pucch_resource_manager) (slot_tx : Nat) : pucch_resource_manager :=
  { resource_slots := m.resource_slots.set (ring_pos (slot_tx - 1)) empty_slot_record
    last_sl_ind := slot_tx }

/-- Manager-level `reserve_next_f1_harq_res_available` /
`reserve_next_f2_harq_res_available` (header lines 56-65), via the shared
helper dispatched on the format, acting on the slot's ring entry. -/
def reserve_next_harq_res_available (m : pucch_resource_manager) (slot_harq : Nat)
    (crnti : Nat) (cfg : pucch_config) (format : pucch_format) :
    pucch_resource_manager × pucch_harq_resource_alloc_record :=
  let res := (m.get_slot_resource_counter slot_harq).reserve_next_harq_res_available
      crnti cfg format
  (m.set_slot_resource_counter slot_harq res.1, res.2)

/-- Header line 57: F1 HARQ reservation. -/
def reserve_next_f1_harq_res_available (m : pucch_resource_manager) (slot_harq : Nat)
    (crnti : Nat) (cfg : pucch_config) :
    pucch_resource_manager × pucch_harq_resource_alloc_record :=
  m.reserve_next_harq_res_available slot_harq crnti cfg pucch_format.FORMAT_1

/-- Header line 65: F2 HARQ reservation. -/
def reserve_next_f2_harq_res_available (m : pucch_resource_manager) (slot_harq : Nat)
    (crnti : Nat) (cfg : pucch_config) :
    pucch_resource_manager × pucch_harq_resource_alloc_record :=
  m.reserve_next_harq_res_available slot_harq crnti cfg pucch_format.FORMAT_2

/-- Manager-level `release_harq_f1_resource` / `release_harq_f2_resource`
(header lines 95 and 102) via the shared helper (header line 171). -/
def release_harq_resource (m : pucch_resource_manager) (slot_harq : Nat) (crnti : Nat)
    (cfg : pucch_config) (format : pucch_format) : pucch_resource_manager × Bool :=
  let res := (m.get_slot_resource_counter slot_harq).release_harq_resource crnti cfg format
  (m.set_slot_resource_counter slot_harq res.1, res.2)

/-- Manager-level `fetch_f1_pucch_res_indic` / `fetch_f2_pucch_res_indic`
(header lines 120 and 124) via the shared helper (header line 173). -/
def fetch_pucch_res_indic (m : pucch_resource_manager) (slot_tx : Nat) (crnti : Nat)
    (cfg : pucch_config) (format : pucch_format) : Int :=
  (m.get_slot_resource_counter slot_tx).fetch_pucch_res_indic crnti cfg format

/-- Manager-level `reserve_sr_res_available` (header line 88). -/
def reserve_sr_res_available (m : pucch_resource_manager) (slot_sr : Nat) (crnti : Nat)
    (cfg : pucch_config) : pucch_resource_manager × Option Nat :=
  let res := (m.get_slot_resource_counter slot_sr).reserve_sr_res_available crnti cfg
  (m.set_slot_resource_counter slot_sr res.1, res.2)

/-- Manager-level `release_sr_resource` (header line 109). -/
def release_sr_resource (m : pucch_resource_manager) (slot_sr : Nat) (crnti : Nat)
    (cfg : pucch_config) : pucch_resource_manager × Bool :=
  let res := (m.get_slot_resource_counter slot_sr).release_sr_resource crnti cfg
  (m.set_slot_resource_counter slot_sr res.1, res.2)

/-- Manager-level `reserve_csi_resource` (header line 82). -/
def reserve_csi_resource (m : pucch_resource_manager) (slot_harq : Nat) (crnti : Nat)
    (ue_cell_cfg : ue_cell_configuration) : pucch_resource_manager × Option Nat :=
  let res := (m.get_slot_resource_counter slot_harq).reserve_csi_resource crnti ue_cell_cfg
  (m.set_slot_resource_counter slot_harq res.1, res.2)

/-- Manager-level `release_csi_resource` (header line 116). -/
def release_csi_resource (m : pucch_resource_manager) (slot_sr : Nat) (crnti : Nat)
    (ue_cell_cfg : ue_cell_configuration) : pucch_resource_manager × Bool :=
  let res := (m.get_slot_resource_counter slot_sr).release_csi_resource crnti ue_cell_cfg
  (m.set_slot_resource_counter slot_sr res.1, res.2)

/-- Manager-level `is_common_resource_available` (header line 46). -/
def is_common_resource_available (m : pucch_resource_manager) (sl : Nat)
    (r_pucch : Nat) : Bool :=
  (m.get_slot_resource_counter sl).is_common_resource_available r_pucch

/-- Manager-level `reserve_common_resource` (header line 49). -/
def reserve_common_resource (m : pucch_resource_manager) (sl : Nat) (r_pucch : Nat) :
    pucch_resource_manager :=
  m.set_slot_resource_counter sl ((m.get_slot_resource_counter sl).reserve_common_resource r_pucch)

end pucch_resource_manager

/-! ## DRX active-time controller (ue_drx_controller.h) -/

/-- Half-open interval of unsigned values, modelling the C++
`interval<unsigned>` used for the periodic on-duration window
(`active_window`, header line 72). -/
structure uinterval where
  start : Nat
  stop  : Nat
deriving DecidableEq, Repr

/-- DRX configuration parameters, standing in for `drx_config`
(srsran/ran/drx_config.h, not part of the available sources); only its
presence or absence is consulted by the enablement check, the converted
slot quantities being cached in the controller fields below. -/
structure drx_config where
  long_cycle_ms        : Nat
  on_duration_timer_ms : Nat
deriving DecidableEq, Repr

/-- The UE DRX controller state, from `ue_drx_controller.h` lines 63-76:
an optional DRX configuration, the config parameters converted to slots
(window period, on-duration window, inactivity duration), the
ContentionResolutionTimer duration in slots, the derived extension marker
`active_time_end` (an invalidatable slot point, modelled as Option Nat),
and the current slot as last given to slot_indication. -/
structure ue_drx_controller where
  drx_cfg              : Option drx_config
  active_window_period : Nat
  active_window        : uinterval
  inactivity_dur       : Nat
  conres_timer_slots   : Nat
  active_time_end      : Option Nat
  last_slot_ind        : Nat
deriving DecidableEq, Repr

namespace ue_drx_controller

/-- Modelled from the spec: body of `ue_drx_controller::is_active_time`
(declared at header line 61; the defining .cpp is not in the tree): the
UE is in active time when the slot, reduced modulo the DRX period, falls
in the periodic on-duration window, or when the slot is before the
extension marker active_time_end (an invalid marker extends nothing). -/
def is_active_time (u : ue_drx_controller) (dl_slot : Nat) : Bool :=
  (match u.active_time_end with
   | some e => decide (dl_slot < e)
   | none => false)
  || (u.active_window.start ≤ dl_slot % u.active_window_period
      && dl_slot % u.active_window_period < u.active_window.stop)

/-- Modelled from the spec: body of `ue_drx_controller::is_pdcch_enabled`
(declared at header line 51): when no DRX is configured the UE monitors
every slot — an explicit branch on the optional config — otherwise PDCCH
may be allocated exactly in active time.  Pure read: it takes the
controller by value and returns only a Bool. -/
def is_pdcch_enabled (u : ue_drx_controller) (dl_slot : Nat) : Bool :=
  match u.drx_cfg with
  | none => true
  | some _ => u.is_active_time dl_slot

/-- Maximum of an invalidatable slot point and a slot: an invalid marker
acts as minus infinity. -/
def slot_max (e : Option Nat) (s : Nat) : Option Nat :=
  match e with
  | none => some s
  | some e0 => some (max e0 s)

/-- Modelled from the spec: body of
`ue_drx_controller::on_new_pdcch_alloc` (declared at header line 54):
sets active_time_end to the maximum of its current value and
dl_slot + inactivity_duration. -/
def on_new_pdcch_alloc (u : ue_drx_controller) (dl_slot : Nat) : ue_drx_controller :=
  { u with active_time_end := slot_max u.active_time_end (dl_slot + u.inactivity_dur) }

/-- Modelled from the spec: body of `ue_drx_controller::on_con_res_start`
(declared at header line 57): sets active_time_end to the maximum of its
current value and current_slot + contention_resolution_timer. -/
def on_con_res_start (u : ue_drx_controller) : ue_drx_controller :=
  { u with active_time_end := slot_max u.active_time_end (u.last_slot_ind + u.conres_timer_slots) }

/-- Modelled from the spec: body of `ue_drx_controller::slot_indication`
(declared at header line 48): records the new current slot (the periodic
window boundaries are recomputed from the unchanged configuration) and
never resets active_time_end. -/
def slot_indication (u : ue_drx_controller) (dl_slot : Nat) : ue_drx_controller :=
  { u with last_slot_ind := dl_slot }

/-- The state-mutating events of the DRX controller API. -/
inductive drx_event where
  | ev_slot_indication (dl_slot : Nat)
  | ev_on_new_pdcch_alloc (dl_slot : Nat)
  | ev_on_con_res_start
deriving DecidableEq, Repr

/-- Apply one API event to the controller. -/
def drx_step (u : ue_drx_controller) : drx_event → ue_drx_controller
  | drx_event.ev_slot_indication sl => u.slot_indication sl
  | drx_event.ev_on_new_pdcch_alloc sl => u.on_new_pdcch_alloc sl
  | drx_event.ev_on_con_res_start => u.on_con_res_start

/-- Apply a sequence of API events in order. -/
def drx_run (u : ue_drx_controller) : List drx_event → ue_drx_controller
  | [] => u
  | ev :: evs => drx_run (drx_step u ev) evs

/-- Ordering on the invalidatable extension marker: an invalid marker is
below every slot, so the marker never shrinks means this order never
goes down. -/
def slot_le (a b : Option Nat) : Prop :=
  match a, b with
  | none, _ => True
  | some _, none => False
  | some x, some y => x ≤ y

end ue_drx_controller

/-! ## UHD TX stream FSM (radio_uhd_tx_stream_fsm.h, fully inline) -/

/-- The Tx stream internal states, from `radio_uhd_tx_stream_fsm.h` lines
35-50. -/
inductive uhd_states where
  | UNINITIALIZED
  | START_BURST
  | IN_BURST
  | END_OF_BURST
  | WAIT_END_OF_BURST
  | WAIT_STOP
  | STOPPED
deriving DecidableEq, Repr

/-- Transmission metadata, modelling the `uhd::tx_metadata_t` fields the
FSM writes.  The double-valued time stamps are modelled as rationals,
which preserves the ordering comparisons the FSM performs. -/
structure tx_metadata where
  has_time_spec  : Bool
  start_of_burst : Bool
  end_of_burst   : Bool
  time_spec      : Rat
deriving DecidableEq, Repr

/-- Wait-for-end-of-burst acknowledgement timeout in seconds
(`WAIT_EOB_ACK_TIMEOUT_S`, line 32). -/
def WAIT_EOB_ACK_TIMEOUT_S : Rat := 1 / 100

/-- The TX stream FSM state, from lines 52-60: the current state and the
end-of-burst wait deadline (default-constructed `uhd::time_spec_t()` is
time zero).  The mutex and condition variable serialize access and play
no role in the sequential transition semantics. -/
structure radio_uhd_tx_stream_fsm where
  state            : uhd_states
  wait_eob_timeout : Rat
deriving DecidableEq, Repr

namespace radio_uhd_tx_stream_fsm

/-- Lines 64-68: `init_successful` moves the machine to START_BURST. -/
def init_successful (f : radio_uhd_tx_stream_fsm) : radio_uhd_tx_stream_fsm :=
  { f with state := uhd_states.START_BURST }

/-- Lines 73-81: `async_event_late_underflow` transitions to END_OF_BURST
and arms the acknowledgement deadline, but only from IN_BURST. -/
def async_event_late_underflow (f : radio_uhd_tx_stream_fsm) (time_spec : Rat) :
    radio_uhd_tx_stream_fsm :=
  if f.state = uhd_states.IN_BURST then
    { state := uhd_states.END_OF_BURST, wait_eob_timeout := time_spec + WAIT_EOB_ACK_TIMEOUT_S }
  else f

/-- Lines 85-91: `async_event_end_of_burst_ack` returns to START_BURST,
but only from WAIT_END_OF_BURST. -/
def async_event_end_of_burst_ack (f : radio_uhd_tx_stream_fsm) : radio_uhd_tx_stream_fsm :=
  if f.state = uhd_states.WAIT_END_OF_BURST then { f with state := uhd_states.START_BURST }
  else f

/-- Lines 97-141: `transmit_block`.  Returns the new FSM state, the
metadata as written, and whether the block shall be transmitted (false
means the block is ignored).  The C++ switch falls through from
WAIT_END_OF_BURST (when the deadline has not yet passed) into the
UNINITIALIZED / WAIT_STOP / STOPPED arm, which returns false. -/
def transmit_block (f : radio_uhd_tx_stream_fsm) (metadata : tx_metadata)
    (time_spec : Rat) : radio_uhd_tx_stream_fsm × tx_metadata × Bool :=
  match f.state with
  | uhd_states.START_BURST =>
      ({ f with state := uhd_states.IN_BURST },
       { metadata with has_time_spec := true, start_of_burst := true, time_spec := time_spec },
       true)
  | uhd_states.IN_BURST => (f, metadata, true)
  | uhd_states.END_OF_BURST =>
      let md := { metadata with end_of_burst := true }
      if f.wait_eob_timeout = 0 then
        ({ state := uhd_states.WAIT_END_OF_BURST
           wait_eob_timeout := md.time_spec + WAIT_EOB_ACK_TIMEOUT_S }, md, true)
      else ({ f with state := uhd_states.WAIT_END_OF_BURST }, md, true)
  | uhd_states.WAIT_END_OF_BURST =>
      if f.wait_eob_timeout < time_spec then
        ({ f with state := uhd_states.IN_BURST },
         { metadata with has_time_spec := true, start_of_burst := true, time_spec := time_spec },
         true)
      else (f, metadata, false)
  | uhd_states.UNINITIALIZED => (f, metadata, false)
  | uhd_states.WAIT_STOP => (f, metadata, false)
  | uhd_states.STOPPED => (f, metadata, false)

/-- Lines 143-150: `stop` flags end-of-burst when in a burst and moves
the machine to WAIT_STOP unconditionally. -/
def stop (f : radio_uhd_tx_stream_fsm) (metadata : tx_metadata) :
    radio_uhd_tx_stream_fsm × tx_metadata :=
  ({ f with state := uhd_states.WAIT_STOP },
   if f.state = uhd_states.IN_BURST then { metadata with end_of_burst := true } else metadata)

/-- Lines 167-172: `async_task_stopped` moves the machine to STOPPED. -/
def async_task_stopped (f : radio_uhd_tx_stream_fsm) : radio_uhd_tx_stream_fsm :=
  { f with state := uhd_states.STOPPED }

/-- The events the stopped machine may receive before a re-init, per the
claim: block transmissions and the asynchronous notifications. -/
inductive uhd_event where
  | ev_transmit_block (metadata : tx_metadata) (time_spec : Rat)
  | ev_async_event_late_underflow (time_spec : Rat)
  | ev_async_event_end_of_burst_ack
  | ev_async_task_stopped
deriving DecidableEq, Repr

/-- Apply one event, discarding the metadata and boolean outputs. -/
def uhd_step (f : radio_uhd_tx_stream_fsm) : uhd_event → radio_uhd_tx_stream_fsm
  | uhd_event.ev_transmit_block md t => (f.transmit_block md t).1
  | uhd_event.ev_async_event_late_underflow t => f.async_event_late_underflow t
  | uhd_event.ev_async_event_end_of_burst_ack => f.async_event_end_of_burst_ack
  | uhd_event.ev_async_task_stopped => f.async_task_stopped

/-- Apply a sequence of events in order. -/
def uhd_run (f : radio_uhd_tx_stream_fsm) : List uhd_event → radio_uhd_tx_stream_fsm
  | [] => f
  | ev :: evs => uhd_run (uhd_step f ev) evs

/-- The non-transmitting states reached by stop(): WAIT_STOP and
STOPPED. -/
def non_transmitting (s : uhd_states) : Prop :=
  s = uhd_states.WAIT_STOP ∨ s = uhd_states.STOPPED

instance (s : uhd_states) : Decidable (non_transmitting s) := by
  unfold non_transmitting; infer_instance

end radio_uhd_tx_stream_fsm

/-! ## Remaining definitions: wrappers, well-formedness, sequences, fixtures -/

namespace pucch_resource_manager

/-- Header line 95: F1 HARQ release. -/
def release_harq_f1_resource (m : pucch_resource_manager) (slot_harq : Nat) (crnti : Nat)
    (cfg : pucch_config) : pucch_resource_manager × Bool :=
  m.release_harq_resource slot_harq crnti cfg pucch_format.FORMAT_1

/-- Header line 102: F2 HARQ release. -/
def release_harq_f2_resource (m : pucch_resource_manager) (slot_harq : Nat) (crnti : Nat)
    (cfg : pucch_config) : pucch_resource_manager × Bool :=
  m.release_harq_resource slot_harq crnti cfg pucch_format.FORMAT_2

/-- Header line 120: F1 resource-indicator fetch. -/
def fetch_f1_pucch_res_indic (m : pucch_resource_manager) (slot_tx : Nat) (crnti : Nat)
    (cfg : pucch_config) : Int :=
  m.fetch_pucch_res_indic slot_tx crnti cfg pucch_format.FORMAT_1

/-- Header line 124: F2 resource-indicator fetch. -/
def fetch_f2_pucch_res_indic (m : pucch_resource_manager) (slot_tx : Nat) (crnti : Nat)
    (cfg : pucch_config) : Int :=
  m.fetch_pucch_res_indic slot_tx crnti cfg pucch_format.FORMAT_2

/-- Shape invariant of a ledger entry: the C++ std::array sizes. -/
def record_wf (r : rnti_pucch_res_id_slot_record) : Prop :=
  r.used_common_resources.length = MAX_COMMON_PUCCH_RESOURCES ∧
  r.ues_using_pucch_res.length = MAX_PUCCH_RESOURCES

/-- Shape invariant of the manager: the C++ std::array sizes of the ring
and of every ledger entry. -/
def wf (m : pucch_resource_manager) : Prop :=
  m.resource_slots.length = RES_MANAGER_RING_BUFFER_SIZE ∧
  ∀ r ∈ m.resource_slots, record_wf r

instance (r : rnti_pucch_res_id_slot_record) : Decidable (record_wf r) := by
  unfold record_wf; infer_instance

instance (m : pucch_resource_manager) : Decidable (wf m) := by
  unfold wf; infer_instance

instance (m : pucch_resource_manager) (sl : Nat) : Decidable (m.valid_slot sl) := by
  unfold valid_slot; infer_instance

/-- Reserving for each terminal of a list in sequence, at one slot and
one format, collecting the returned allocation records. -/
def reserve_seq (m : pucch_resource_manager) (sl : Nat) (cfg : pucch_config)
    (format : pucch_format) : List Nat → pucch_resource_manager × List pucch_harq_resource_alloc_record
  | [] => (m, [])
  | u :: us =>
      let r1 := m.reserve_next_harq_res_available sl u cfg format
      let rest := reserve_seq r1.1 sl cfg format us
      (rest.1, r1.2 :: rest.2)

/-- One slot advance under the external clock contract (spec section 6):
slot_indication is called with exactly the next slot. -/
def advance (m : pucch_resource_manager) : pucch_resource_manager :=
  m.slot_indication (m.last_sl_ind + 1)

/-- n consecutive slot advances. -/
def advance_n (m : pucch_resource_manager) : Nat → pucch_resource_manager
  | 0 => m
  | n + 1 => advance_n m.advance n

end pucch_resource_manager

namespace ue_drx_controller

/-- The spec wording of the periodic on-duration membership test, for the
enablement iff: the slot reduced modulo the DRX period lies in
[w0, w1). -/
def in_on_duration_window (u : ue_drx_controller) (slot : Nat) : Prop :=
  u.active_window.start ≤ slot % u.active_window_period ∧
    slot % u.active_window_period < u.active_window.stop

/-- The spec wording of the extension test: the slot is before a valid
active_time_end marker. -/
def before_active_time_end (u : ue_drx_controller) (slot : Nat) : Prop :=
  ∃ e, u.active_time_end = some e ∧ slot < e

instance (u : ue_drx_controller) (slot : Nat) : Decidable (in_on_duration_window u slot) := by
  unfold in_on_duration_window; infer_instance

instance (u : ue_drx_controller) (slot : Nat) : Decidable (before_active_time_end u slot) := by
  unfold before_active_time_end
  rcases u.active_time_end with _ | e
  · exact Decidable.isFalse (by simp)
  · exact decidable_of_iff (slot < e) (by simp)

end ue_drx_controller

/-! Concrete fixtures used by the witness corollaries. -/

/-- A small test PUCCH configuration: three F1 HARQ resources at ids
0..2, three F2 HARQ resources at ids 10..12, the SR resource at id 20. -/
def cfgT : pucch_config :=
  { f1_start := 0, f1_count := 3, f2_start := 10, f2_count := 3, sr_res_id := 20 }

/-- A small test UE cell configuration: the CSI resource at id 21. -/
def ueCfgT : ue_cell_configuration := { csi_res_id := 21 }

/-- A manager holding one F1 HARQ assignment (terminal 7 at slot 3), one
SR assignment (terminal 8 at slot 4) and the CSI assignment (terminal 9
at slot 6), used by witnesses. -/
def mRel : pucch_resource_manager :=
  (((pucch_resource_manager.init.reserve_next_f1_harq_res_available 3 7
      cfgT).1.reserve_sr_res_available 4 8 cfgT).1.reserve_csi_resource 6 9 ueCfgT).1

/-- A test DRX controller: period 10 slots, on-duration window [2, 5),
inactivity 4 slots, ConRes timer 6 slots, no extension yet. -/
def drxT : ue_drx_controller :=
  { drx_cfg := some { long_cycle_ms := 10, on_duration_timer_ms := 3 }
    active_window_period := 10
    active_window := { start := 2, stop := 5 }
    inactivity_dur := 4
    conres_timer_slots := 6
    active_time_end := none
    last_slot_ind := 0 }

/-! ## Helper lemmas on list access -/

theorem getD_set_ne {α : Type} (l : List α) (i j : Nat) (a d : α) (hne : i ≠ j) :
    (l.set i a).getD j d = l.getD j d := by
  rw [List.getD_eq_getElem?_getD, List.getD_eq_getElem?_getD, List.getElem?_set_ne hne]

theorem getD_set_self {α : Type} (l : List α) (i : Nat) (a d : α) (h : i < l.length) :
    (l.set i a).getD i d = a := by
  rw [List.getD_eq_getElem?_getD, List.getElem?_set_eq_of_lt a h]
  rfl

theorem getD_mem {α : Type} (l : List α) (i : Nat) (d : α) (h : i < l.length) :
    l.getD i d ∈ l := by
  rw [List.getD_eq_getElem?_getD, List.getElem?_eq_getElem h]
  exact List.getElem_mem h

theorem set_getD_self {α : Type} (l : List α) (i : Nat) (d : α) (h : i < l.length) :
    l.set i (l.getD i d) = l := by
  apply List.ext_getElem?
  intro n
  by_cases hn : n = i
  · subst hn
    rw [List.getElem?_set_eq_of_lt _ h, List.getD_eq_getElem?_getD, List.getElem?_eq_getElem h]
    rfl
  · rw [List.getElem?_set_ne (by omega)]

theorem getD_replicate {α : Type} (n i : Nat) (x d : α) (h : i < n) :
    (List.replicate n x).getD i d = x := by
  rw [List.getD_eq_getElem?_getD, List.getElem?_replicate, if_pos h]
  rfl

/-! ## Characterization of the linear scan -/

/-- Soundness of the linear scan: a hit is inside the scanned range,
satisfies the predicate, and is the lowest index of the range doing so. -/
theorem scan_first_some {cells : List resource_tracker} {p : resource_tracker → Bool}
    {s c i : Nat} (h : scan_first cells p s c = some i) :
    s ≤ i ∧ i < s + c ∧ p (cells.getD i free_tracker) = true ∧
      ∀ j, s ≤ j → j < i → p (cells.getD j free_tracker) = false := by
  induction c generalizing s with
  | zero => simp [scan_first] at h
  | succ c ih =>
    unfold scan_first at h
    by_cases hp : p (cells.getD s free_tracker) = true
    · rw [if_pos hp] at h
      obtain rfl : s = i := by injection h
      exact ⟨Nat.le_refl _, by omega, hp, fun j hj1 hj2 => absurd hj1 (by omega)⟩
    · rw [if_neg hp] at h
      obtain ⟨h1, h2, h3, h4⟩ := ih h
      refine ⟨by omega, by omega, h3, fun j hj1 hj2 => ?_⟩
      rcases Nat.eq_or_lt_of_le hj1 with rfl | hlt
      · exact Bool.eq_false_iff.mpr hp
      · exact h4 j hlt hj2

/-- A miss of the linear scan means no index of the range satisfies the
predicate. -/
theorem scan_first_none {cells : List resource_tracker} {p : resource_tracker → Bool}
    {s c : Nat} (h : scan_first cells p s c = none) :
    ∀ j, s ≤ j → j < s + c → p (cells.getD j free_tracker) = false := by
  induction c generalizing s with
  | zero => intro j hj1 hj2; omega
  | succ c ih =>
    unfold scan_first at h
    by_cases hp : p (cells.getD s free_tracker) = true
    · rw [if_pos hp] at h; exact absurd h (by simp)
    · rw [if_neg hp] at h
      intro j hj1 hj2
      rcases Nat.eq_or_lt_of_le hj1 with rfl | hlt
      · exact Bool.eq_false_iff.mpr hp
      · exact ih h j hlt (by omega)

/-- Completeness of the linear scan: if offsets below k miss and offset k
hits, the scan returns exactly index s + k. -/
theorem scan_first_eq_some_of {cells : List resource_tracker} {p : resource_tracker → Bool}
    {s c k : Nat} (hk : k < c) (hhit : p (cells.getD (s + k) free_tracker) = true)
    (hmiss : ∀ j, j < k → p (cells.getD (s + j) free_tracker) = false) :
    scan_first cells p s c = some (s + k) := by
  induction c generalizing s k with
  | zero => omega
  | succ c ih =>
    unfold scan_first
    cases k with
    | zero =>
      rw [if_pos (by simpa using hhit)]
      simp
    | succ k =>
      have h0 : p (cells.getD s free_tracker) = false := by
        have := hmiss 0 (Nat.succ_pos k)
        simpa using this
      rw [if_neg (by rw [h0]; simp)]
      have := ih (s := s + 1) (k := k) (by omega)
        (by have : s + 1 + k = s + (k + 1) := by omega
            rw [this]; exact hhit)
        (fun j hj => by
          have h1 : s + 1 + j = s + (j + 1) := by omega
          rw [h1]; exact hmiss (j + 1) (by omega))
      rw [this]
      congr 1
      omega

/-- If no index of the range satisfies the predicate, the scan misses. -/
theorem scan_first_eq_none_of {cells : List resource_tracker} {p : resource_tracker → Bool}
    {s c : Nat} (hmiss : ∀ j, s ≤ j → j < s + c → p (cells.getD j free_tracker) = false) :
    scan_first cells p s c = none := by
  induction c generalizing s with
  | zero => rfl
  | succ c ih =>
    unfold scan_first
    rw [if_neg (by rw [hmiss s (Nat.le_refl s) (by omega)]; simp)]
    exact ih fun j hj1 hj2 => hmiss j (by omega) (by omega)

/-- The scan only looks at the cells of its range. -/
theorem scan_first_congr {cells1 cells2 : List resource_tracker} {p : resource_tracker → Bool}
    {s c : Nat}
    (hagree : ∀ j, s ≤ j → j < s + c →
      cells1.getD j free_tracker = cells2.getD j free_tracker) :
    scan_first cells1 p s c = scan_first cells2 p s c := by
  induction c generalizing s with
  | zero => rfl
  | succ c ih =>
    unfold scan_first
    rw [hagree s (Nat.le_refl s) (by omega)]
    exact if_congr Iff.rfl rfl (ih fun j hj1 hj2 => hagree j (by omega) (by omega))

/-! ## Manager-level access lemmas -/

namespace pucch_resource_manager

theorem ring_pos_lt (sl : Nat) : ring_pos sl < RES_MANAGER_RING_BUFFER_SIZE :=
  Nat.mod_lt _ (by decide)

theorem record_wf_get {m : pucch_resource_manager} (hwf : m.wf) (sl : Nat) :
    record_wf (m.get_slot_resource_counter sl) :=
  hwf.2 _ (getD_mem _ _ _ (by rw [hwf.1]; exact ring_pos_lt sl))

theorem get_set_slot_self {m : pucch_resource_manager} (hwf : m.wf) (sl : Nat)
    (r : rnti_pucch_res_id_slot_record) :
    (m.set_slot_resource_counter sl r).get_slot_resource_counter sl = r := by
  unfold set_slot_resource_counter get_slot_resource_counter
  exact getD_set_self _ _ _ _ (by rw [hwf.1]; exact ring_pos_lt sl)

theorem set_slot_self {m : pucch_resource_manager} (hwf : m.wf) (sl : Nat) :
    m.set_slot_resource_counter sl (m.get_slot_resource_counter sl) = m := by
  unfold set_slot_resource_counter get_slot_resource_counter
  rw [set_getD_self _ _ _ (by rw [hwf.1]; exact ring_pos_lt sl)]

theorem wf_set_slot {m : pucch_resource_manager} (hwf : m.wf) (sl : Nat)
    {r : rnti_pucch_res_id_slot_record} (hr : record_wf r) :
    (m.set_slot_resource_counter sl r).wf := by
  constructor
  · show (m.resource_slots.set _ _).length = _
    rw [List.length_set, hwf.1]
  · intro x hx
    rcases List.mem_or_eq_of_mem_set hx with hx | rfl
    · exact hwf.2 x hx
    · exact hr

theorem record_wf_empty : record_wf empty_slot_record := by
  constructor <;>
    simp [empty_slot_record, MAX_COMMON_PUCCH_RESOURCES, MAX_PUCCH_RESOURCES]

theorem wf_init : wf init := by
  constructor
  · simp [init]
  · intro r hr
    have := List.eq_of_mem_replicate hr
    subst this
    exact record_wf_empty

/-- What a successful HARQ reservation means in terms of the scan. -/
theorem reserve_res_some_iff {m : pucch_resource_manager} {sl crnti : Nat}
    {cfg : pucch_config} {fmt : pucch_format} {idx : Nat} :
    (m.reserve_next_harq_res_available sl crnti cfg fmt).2.pucch_res = some idx ↔
      scan_first (m.get_slot_resource_counter sl).ues_using_pucch_res tracker_free
        (group_start cfg fmt) (group_count cfg fmt) = some idx := by
  unfold reserve_next_harq_res_available
    rnti_pucch_res_id_slot_record.reserve_next_harq_res_available
  cases h : scan_first (m.get_slot_resource_counter sl).ues_using_pucch_res tracker_free
      (group_start cfg fmt) (group_count cfg fmt) with
  | none => simp [h]
  | some i => simp [h]

/-- The state after a successful HARQ reservation: the slot's ledger
entry with the granted cell bound to the terminal. -/
theorem reserve_state_of_scan {m : pucch_resource_manager} {sl : Nat} (crnti : Nat)
    {cfg : pucch_config} {fmt : pucch_format} {idx : Nat}
    (h : scan_first (m.get_slot_resource_counter sl).ues_using_pucch_res tracker_free
      (group_start cfg fmt) (group_count cfg fmt) = some idx) :
    m.reserve_next_harq_res_available sl crnti cfg fmt =
      (m.set_slot_resource_counter sl
        { m.get_slot_resource_counter sl with
          ues_using_pucch_res := (m.get_slot_resource_counter sl).ues_using_pucch_res.set idx
            { rnti := some crnti, format := fmt } },
       { pucch_res := some idx, pucch_res_indicator := idx - group_start cfg fmt }) := by
  unfold reserve_next_harq_res_available
    rnti_pucch_res_id_slot_record.reserve_next_harq_res_available
  rw [h]

end pucch_resource_manager

/-! ## Claim theorems -/

open pucch_resource_manager in
/-- C1: at most one terminal is bound to a given dedicated-resource index,
within its format group, at a given slot: for any slot in the valid
ring-buffer window and either format group, a reservation that returns an
index found that index free beforehand (bound to no terminal, in
particular never to a different one), the successful reservation makes
the index immediately report occupied by the reserving terminal, and a
subsequent reservation for a different terminal at the same slot and
format never returns the already-bound index. -/
theorem harq_reservation_exclusive
    (m : pucch_resource_manager) (sl crnti crnti2 idx : Nat)
    (cfg : pucch_config) (fmt : pucch_format)
    (hwf : m.wf) (hvalid : m.valid_slot sl)
    (hgrp : group_start cfg fmt + group_count cfg fmt ≤ MAX_PUCCH_RESOURCES)
    (hres : (m.reserve_next_harq_res_available sl crnti cfg fmt).2.pucch_res = some idx) :
    ((m.get_slot_resource_counter sl).ues_using_pucch_res.getD idx free_tracker).rnti = none ∧
    (((m.reserve_next_harq_res_available sl crnti cfg fmt).1.get_slot_resource_counter
        sl).ues_using_pucch_res.getD idx free_tracker).rnti = some crnti ∧
    (crnti2 ≠ crnti → ∀ idx2,
      ((m.reserve_next_harq_res_available sl crnti cfg fmt).1.reserve_next_harq_res_available
          sl crnti2 cfg fmt).2.pucch_res = some idx2 → idx2 ≠ idx) := by
  have hscan := reserve_res_some_iff.mp hres
  obtain ⟨h1, h2, h3, _⟩ := scan_first_some hscan
  have hrwf := record_wf_get hwf sl
  have hidx : idx < MAX_PUCCH_RESOURCES := by omega
  have hfree : ((m.get_slot_resource_counter sl).ues_using_pucch_res.getD idx
      free_tracker).rnti = none := by
    simpa [tracker_free] using h3
  have hstate := reserve_state_of_scan crnti hscan
  have hget1 : ((m.reserve_next_harq_res_available sl crnti cfg fmt).1.get_slot_resource_counter
      sl).ues_using_pucch_res =
      (m.get_slot_resource_counter sl).ues_using_pucch_res.set idx
        { rnti := some crnti, format := fmt } := by
    rw [hstate]
    rw [get_set_slot_self hwf]
  have hcell1 : (((m.reserve_next_harq_res_available sl crnti cfg fmt).1.get_slot_resource_counter
      sl).ues_using_pucch_res.getD idx free_tracker) = { rnti := some crnti, format := fmt } := by
    rw [hget1]
    exact getD_set_self _ _ _ _ (by rw [hrwf.2]; exact hidx)
  refine ⟨hfree, by rw [hcell1], ?_⟩
  intro _ idx2 hres2 hcontra
  subst hcontra
  have hscan2 := reserve_res_some_iff.mp hres2
  obtain ⟨_, _, h3b, _⟩ := scan_first_some hscan2
  rw [hcell1] at h3b
  simp [tracker_free] at h3b

/-- Witness for C1: from a fresh manager, terminal 7 reserving an F1 HARQ
resource at slot 5 obtains index 0 and the cell immediately reports
terminal 7 as its occupant. -/
theorem harq_reservation_exclusive_witness :
    (((pucch_resource_manager.init.reserve_next_harq_res_available 5 7 cfgT
        pucch_format.FORMAT_1).1.get_slot_resource_counter 5).ues_using_pucch_res.getD 0
        free_tracker).rnti = some 7 :=
  (harq_reservation_exclusive pucch_resource_manager.init 5 7 8 0 cfgT pucch_format.FORMAT_1
    (by decide) (by decide) (by decide) (by decide)).2.1

namespace pucch_resource_manager

/-- Reservation at a boundary state: when the first k cells of the group
are occupied and the rest are free, the reservation grants exactly cell
start+k with resource indicator k. -/
theorem reserve_at_boundary {m : pucch_resource_manager} {sl : Nat} (crnti : Nat)
    {k : Nat} {cfg : pucch_config} {fmt : pucch_format}
    (hwf : m.wf)
    (hgrp : group_start cfg fmt + group_count cfg fmt ≤ MAX_PUCCH_RESOURCES)
    (hk : k < group_count cfg fmt)
    (hocc : ∀ j, j < k → tracker_free ((m.get_slot_resource_counter
      sl).ues_using_pucch_res.getD (group_start cfg fmt + j) free_tracker) = false)
    (hfree : ∀ j, k ≤ j → j < group_count cfg fmt →
      tracker_free ((m.get_slot_resource_counter sl).ues_using_pucch_res.getD
        (group_start cfg fmt + j) free_tracker) = true) :
    m.reserve_next_harq_res_available sl crnti cfg fmt =
      (m.set_slot_resource_counter sl
        { m.get_slot_resource_counter sl with
          ues_using_pucch_res := (m.get_slot_resource_counter sl).ues_using_pucch_res.set
            (group_start cfg fmt + k) { rnti := some crnti, format := fmt } },
       { pucch_res := some (group_start cfg fmt + k), pucch_res_indicator := k }) := by
  have hscan : scan_first (m.get_slot_resource_counter sl).ues_using_pucch_res tracker_free
      (group_start cfg fmt) (group_count cfg fmt) = some (group_start cfg fmt + k) :=
    scan_first_eq_some_of hk (hfree k (Nat.le_refl k) hk) hocc
  rw [reserve_state_of_scan crnti hscan]
  have : group_start cfg fmt + k - group_start cfg fmt = k := by omega
  rw [this]

/-- A HARQ reservation preserves the manager's shape invariant. -/
theorem wf_reserve {m : pucch_resource_manager} {sl crnti : Nat}
    {cfg : pucch_config} {fmt : pucch_format} (hwf : m.wf) :
    (m.reserve_next_harq_res_available sl crnti cfg fmt).1.wf := by
  unfold reserve_next_harq_res_available
    rnti_pucch_res_id_slot_record.reserve_next_harq_res_available
  have hrwf := record_wf_get hwf sl
  cases h : scan_first (m.get_slot_resource_counter sl).ues_using_pucch_res tracker_free
      (group_start cfg fmt) (group_count cfg fmt) with
  | none =>
    simp only [h]
    exact wf_set_slot hwf sl hrwf
  | some i =>
    simp only [h]
    refine wf_set_slot hwf sl ⟨hrwf.1, ?_⟩
    show (List.set _ _ _).length = _
    rw [List.length_set, hrwf.2]

/-- Sequential reservations from a boundary state: with the first k group
cells occupied and the rest free, reserving for the terminals of a list
in order yields the consecutive indicators k, k+1, ... and every
reservation succeeds. -/
theorem reserve_seq_indicators (us : List Nat) :
    ∀ (m : pucch_resource_manager) (sl : Nat) (cfg : pucch_config) (fmt : pucch_format)
      (k : Nat),
    m.wf →
    group_start cfg fmt + group_count cfg fmt ≤ MAX_PUCCH_RESOURCES →
    us.length + k ≤ group_count cfg fmt →
    (∀ j, j < k → tracker_free ((m.get_slot_resource_counter
      sl).ues_using_pucch_res.getD (group_start cfg fmt + j) free_tracker) = false) →
    (∀ j, k ≤ j → j < group_count cfg fmt →
      tracker_free ((m.get_slot_resource_counter sl).ues_using_pucch_res.getD
        (group_start cfg fmt + j) free_tracker) = true) →
    (reserve_seq m sl cfg fmt us).2.map (fun a => a.pucch_res_indicator) =
        List.range' k us.length ∧
      ∀ a ∈ (reserve_seq m sl cfg fmt us).2, a.pucch_res.isSome = true := by
  induction us with
  | nil => intro m sl cfg fmt k _ _ _ _ _; exact ⟨rfl, by simp [reserve_seq]⟩
  | cons u us ih =>
    intro m sl cfg fmt k hwf hgrp hlen hocc hfree
    have hk : k < group_count cfg fmt := by
      have := us.length_cons u
      omega
    have hstep := reserve_at_boundary u hwf hgrp hk hocc hfree
    have hrwf := record_wf_get hwf sl
    have hwf1 : (m.reserve_next_harq_res_available sl u cfg fmt).1.wf := wf_reserve hwf
    have hget1 : ((m.reserve_next_harq_res_available sl u cfg fmt).1.get_slot_resource_counter
        sl).ues_using_pucch_res =
        (m.get_slot_resource_counter sl).ues_using_pucch_res.set
          (group_start cfg fmt + k) { rnti := some u, format := fmt } := by
      rw [hstep, get_set_slot_self hwf]
    have hcells : ∀ j, j < MAX_PUCCH_RESOURCES → j ≠ group_start cfg fmt + k →
        ((m.reserve_next_harq_res_available sl u cfg fmt).1.get_slot_resource_counter
          sl).ues_using_pucch_res.getD j free_tracker =
        (m.get_slot_resource_counter sl).ues_using_pucch_res.getD j free_tracker := by
      intro j _ hne
      rw [hget1]
      exact getD_set_ne _ _ _ _ _ (fun h => hne h.symm)
    have hcellk : ((m.reserve_next_harq_res_available sl u cfg fmt).1.get_slot_resource_counter
        sl).ues_using_pucch_res.getD (group_start cfg fmt + k) free_tracker =
        { rnti := some u, format := fmt } := by
      rw [hget1]
      exact getD_set_self _ _ _ _ (by rw [hrwf.2]; omega)
    have hocc1 : ∀ j, j < k + 1 → tracker_free
        (((m.reserve_next_harq_res_available sl u cfg fmt).1.get_slot_resource_counter
          sl).ues_using_pucch_res.getD (group_start cfg fmt + j) free_tracker) = false := by
      intro j hj
      rcases Nat.lt_or_ge j k with hj2 | hj2
      · rw [hcells _ (by omega) (by omega)]
        exact hocc j hj2
      · have : j = k := by omega
        subst this
        rw [hcellk]
        simp [tracker_free]
    have hfree1 : ∀ j, k + 1 ≤ j → j < group_count cfg fmt → tracker_free
        (((m.reserve_next_harq_res_available sl u cfg fmt).1.get_slot_resource_counter
          sl).ues_using_pucch_res.getD (group_start cfg fmt + j) free_tracker) = true := by
      intro j hj1 hj2
      rw [hcells _ (by omega) (by omega)]
      exact hfree j (by omega) hj2
    have hlen1 : us.length + (k + 1) ≤ group_count cfg fmt := by
      have := us.length_cons u
      omega
    obtain ⟨hmap, hsome⟩ := ih (m.reserve_next_harq_res_available sl u cfg fmt).1 sl cfg fmt
      (k + 1) hwf1 hgrp hlen1 hocc1 hfree1
    constructor
    · show ((m.reserve_next_harq_res_available sl u cfg fmt).2.pucch_res_indicator ::
        (reserve_seq (m.reserve_next_harq_res_available sl u cfg fmt).1 sl cfg fmt
          us).2.map (fun a => a.pucch_res_indicator)) = List.range' k (us.length + 1)
      rw [hmap, hstep]
      rw [List.range'_succ]
    · intro a ha
      have ha2 : a = (m.reserve_next_harq_res_available sl u cfg fmt).2 ∨
          a ∈ (reserve_seq (m.reserve_next_harq_res_available sl u cfg fmt).1 sl cfg
            fmt us).2 := by
        simpa [reserve_seq] using ha
      rcases ha2 with rfl | ha2
      · rw [hstep]
        rfl
      · exact hsome a ha2

end pucch_resource_manager

open pucch_resource_manager in
/-- C2: every reservation of a dedicated HARQ resource selects the lowest
free index within the relevant tracker group (every lower group index is
already occupied), and consequently, from a slot whose group is entirely
free, reserving for N distinct terminals in sequence at one slot and one
format yields resource indicators 0..N-1 in that order, each reservation
succeeding. -/
theorem harq_reservation_lowest_free_sequential
    (m : pucch_resource_manager) (sl crnti idx : Nat) (cfg : pucch_config)
    (fmt : pucch_format) (us : List Nat)
    (hwf : m.wf) (hvalid : m.valid_slot sl)
    (hgrp : group_start cfg fmt + group_count cfg fmt ≤ MAX_PUCCH_RESOURCES) :
    ((m.reserve_next_harq_res_available sl crnti cfg fmt).2.pucch_res = some idx →
      tracker_free ((m.get_slot_resource_counter sl).ues_using_pucch_res.getD idx
        free_tracker) = true ∧
      ∀ j, group_start cfg fmt ≤ j → j < idx →
        tracker_free ((m.get_slot_resource_counter sl).ues_using_pucch_res.getD j
          free_tracker) = false) ∧
    (us.Nodup → us.length ≤ group_count cfg fmt →
      (∀ j, j < group_count cfg fmt →
        tracker_free ((m.get_slot_resource_counter sl).ues_using_pucch_res.getD
          (group_start cfg fmt + j) free_tracker) = true) →
      (reserve_seq m sl cfg fmt us).2.map (fun a => a.pucch_res_indicator) =
          List.range us.length ∧
        ∀ a ∈ (reserve_seq m sl cfg fmt us).2, a.pucch_res.isSome = true) := by
  constructor
  · intro hres
    obtain ⟨h1, h2, h3, h4⟩ := scan_first_some (reserve_res_some_iff.mp hres)
    exact ⟨h3, h4⟩
  · intro hnd hlen hfree
    have h := reserve_seq_indicators us m sl cfg fmt 0 hwf hgrp (by omega)
      (fun j hj => absurd hj (Nat.not_lt_zero j))
      (fun j _ hj2 => hfree j hj2)
    rw [List.range_eq_range']
    exact h

/-- Witness for C2: from a fresh manager, reserving F1 HARQ resources for
the three distinct terminals 7, 8, 9 at slot 5 yields the indicators
0, 1, 2 in order. -/
theorem harq_reservation_lowest_free_sequential_witness :
    (pucch_resource_manager.reserve_seq pucch_resource_manager.init 5 cfgT
        pucch_format.FORMAT_1 [7, 8, 9]).2.map (fun a => a.pucch_res_indicator) =
      List.range 3 :=
  ((harq_reservation_lowest_free_sequential pucch_resource_manager.init 5 7 0 cfgT
      pucch_format.FORMAT_1 [7, 8, 9] (by decide) (by decide) (by decide)).2
    (by decide) (by decide) (by decide)).1

open pucch_resource_manager in
/-- C3: round trip for a terminal with no prior assignment in the group at
a slot of the valid window: after a successful reservation (descriptor
some idx, indicator idx - group start), the fetch operation returns the
very indicator the reservation returned; the matching release reports
true; and the fetch after the release returns the sentinel -1. -/
theorem harq_reserve_fetch_release_roundtrip
    (m : pucch_resource_manager) (sl crnti idx : Nat) (cfg : pucch_config)
    (fmt : pucch_format)
    (hwf : m.wf) (hvalid : m.valid_slot sl)
    (hgrp : group_start cfg fmt + group_count cfg fmt ≤ MAX_PUCCH_RESOURCES)
    (habsent : ∀ j, group_start cfg fmt ≤ j →
      j < group_start cfg fmt + group_count cfg fmt →
      tracker_of crnti ((m.get_slot_resource_counter sl).ues_using_pucch_res.getD j
        free_tracker) = false)
    (hres : (m.reserve_next_harq_res_available sl crnti cfg fmt).2.pucch_res = some idx) :
    (m.reserve_next_harq_res_available sl crnti cfg fmt).1.fetch_pucch_res_indic sl crnti
        cfg fmt =
      ((m.reserve_next_harq_res_available sl crnti cfg fmt).2.pucch_res_indicator : Int) ∧
    ((m.reserve_next_harq_res_available sl crnti cfg fmt).1.release_harq_resource sl crnti
        cfg fmt).2 = true ∧
    ((m.reserve_next_harq_res_available sl crnti cfg fmt).1.release_harq_resource sl crnti
        cfg fmt).1.fetch_pucch_res_indic sl crnti cfg fmt = -1 := by
  have hscan := reserve_res_some_iff.mp hres
  obtain ⟨h1, h2, h3, h4⟩ := scan_first_some hscan
  have hrwf := record_wf_get hwf sl
  have hidx : idx < MAX_PUCCH_RESOURCES := by omega
  have hstate := reserve_state_of_scan crnti hscan
  have hwf1 : (m.reserve_next_harq_res_available sl crnti cfg fmt).1.wf := wf_reserve hwf
  have hget1 : ((m.reserve_next_harq_res_available sl crnti cfg fmt).1.get_slot_resource_counter
      sl).ues_using_pucch_res =
      (m.get_slot_resource_counter sl).ues_using_pucch_res.set idx
        { rnti := some crnti, format := fmt } := by
    rw [hstate, get_set_slot_self hwf]
  have hlen1 : ((m.get_slot_resource_counter sl).ues_using_pucch_res.set idx
      { rnti := some crnti, format := fmt }).length = MAX_PUCCH_RESOURCES := by
    rw [List.length_set, hrwf.2]
  have hscan2 : scan_first ((m.get_slot_resource_counter sl).ues_using_pucch_res.set idx
      { rnti := some crnti, format := fmt }) (tracker_of crnti)
      (group_start cfg fmt) (group_count cfg fmt) = some idx := by
    have hidx_eq : group_start cfg fmt + (idx - group_start cfg fmt) = idx := by omega
    have := @scan_first_eq_some_of ((m.get_slot_resource_counter
        sl).ues_using_pucch_res.set idx { rnti := some crnti, format := fmt })
      (tracker_of crnti) (group_start cfg fmt)
      (group_count cfg fmt) (idx - group_start cfg fmt)
      (by omega)
      (by rw [hidx_eq, getD_set_self _ _ _ _ (by rw [hrwf.2]; exact hidx)]
          simp [tracker_of])
      (by intro j hj
          rw [getD_set_ne _ _ _ _ _ (by omega)]
          exact habsent _ (by omega) (by omega))
    rwa [hidx_eq] at this
  refine ⟨?_, ?_, ?_⟩
  · show ((m.reserve_next_harq_res_available sl crnti cfg fmt).1.get_slot_resource_counter
        sl).fetch_pucch_res_indic crnti cfg fmt = _
    unfold rnti_pucch_res_id_slot_record.fetch_pucch_res_indic
    rw [hget1, hscan2, hstate]
  · show (((m.reserve_next_harq_res_available sl crnti cfg
        fmt).1.get_slot_resource_counter sl).release_harq_resource crnti cfg fmt).2 = true
    unfold rnti_pucch_res_id_slot_record.release_harq_resource
    rw [hget1, hscan2]
  · have hrel : (m.reserve_next_harq_res_available sl crnti cfg fmt).1.release_harq_resource
        sl crnti cfg fmt =
        ((m.reserve_next_harq_res_available sl crnti cfg fmt).1.set_slot_resource_counter sl
          { (m.reserve_next_harq_res_available sl crnti cfg fmt).1.get_slot_resource_counter
              sl with
            ues_using_pucch_res := ((m.get_slot_resource_counter
              sl).ues_using_pucch_res.set idx { rnti := some crnti, format := fmt }).set idx
              free_tracker },
         true) := by
      unfold release_harq_resource rnti_pucch_res_id_slot_record.release_harq_resource
      rw [hget1, hscan2]
    have hget2 : (((m.reserve_next_harq_res_available sl crnti cfg fmt).1.release_harq_resource
        sl crnti cfg fmt).1.get_slot_resource_counter sl).ues_using_pucch_res =
        ((m.get_slot_resource_counter sl).ues_using_pucch_res.set idx
          { rnti := some crnti, format := fmt }).set idx free_tracker := by
      rw [hrel, get_set_slot_self hwf1]
    have hnone : scan_first (((m.get_slot_resource_counter sl).ues_using_pucch_res.set idx
        { rnti := some crnti, format := fmt }).set idx free_tracker) (tracker_of crnti)
        (group_start cfg fmt) (group_count cfg fmt) = none := by
      apply scan_first_eq_none_of
      intro j hj1 hj2
      by_cases hje : j = idx
      · subst hje
        rw [List.set_set]
        rw [getD_set_self _ _ _ _ (by rw [hrwf.2]; exact hidx)]
        simp [tracker_of, free_tracker]
      · rw [getD_set_ne _ _ _ _ _ (fun h => hje h.symm),
          getD_set_ne _ _ _ _ _ (fun h => hje h.symm)]
        exact habsent j hj1 hj2
    show (((m.reserve_next_harq_res_available sl crnti cfg fmt).1.release_harq_resource
        sl crnti cfg fmt).1.get_slot_resource_counter sl).fetch_pucch_res_indic crnti cfg
        fmt = -1
    unfold rnti_pucch_res_id_slot_record.fetch_pucch_res_indic
    rw [hget2, hnone]

/-- Witness for C3: from a fresh manager, terminal 7 reserves an F1 HARQ
resource at slot 5; fetching returns its indicator, releasing reports
true, and fetching again returns the sentinel -1. -/
theorem harq_reserve_fetch_release_roundtrip_witness :
    (pucch_resource_manager.init.reserve_next_harq_res_available 5 7 cfgT
        pucch_format.FORMAT_1).1.fetch_pucch_res_indic 5 7 cfgT pucch_format.FORMAT_1 =
      (((pucch_resource_manager.init.reserve_next_harq_res_available 5 7 cfgT
        pucch_format.FORMAT_1).2.pucch_res_indicator : Nat) : Int) ∧
    ((pucch_resource_manager.init.reserve_next_harq_res_available 5 7 cfgT
        pucch_format.FORMAT_1).1.release_harq_resource 5 7 cfgT
        pucch_format.FORMAT_1).2 = true ∧
    ((pucch_resource_manager.init.reserve_next_harq_res_available 5 7 cfgT
        pucch_format.FORMAT_1).1.release_harq_resource 5 7 cfgT
        pucch_format.FORMAT_1).1.fetch_pucch_res_indic 5 7 cfgT pucch_format.FORMAT_1 = -1 :=
  harq_reserve_fetch_release_roundtrip pucch_resource_manager.init 5 7 0 cfgT
    pucch_format.FORMAT_1 (by decide) (by decide) (by decide) (by decide) (by decide)

open pucch_resource_manager in
/-- C4: exhaustion is not a fault: when every resource of a format group
is already bound at a slot of the valid window, the next reservation
attempt at that slot returns the sentinel record (null descriptor) and
the manager state — in particular that slot's ledger entry — is left
exactly unchanged; the operation is a total function returning the
explicit sentinel, so no exception crosses the manager's boundary. -/
theorem harq_reservation_exhaustion_noop
    (m : pucch_resource_manager) (sl crnti : Nat) (cfg : pucch_config) (fmt : pucch_format)
    (hwf : m.wf) (hvalid : m.valid_slot sl)
    (hfull : ∀ j, group_start cfg fmt ≤ j →
      j < group_start cfg fmt + group_count cfg fmt →
      tracker_free ((m.get_slot_resource_counter sl).ues_using_pucch_res.getD j
        free_tracker) = false) :
    m.reserve_next_harq_res_available sl crnti cfg fmt =
      (m, { pucch_res := none, pucch_res_indicator := 0 }) := by
  unfold reserve_next_harq_res_available
    rnti_pucch_res_id_slot_record.reserve_next_harq_res_available
  rw [scan_first_eq_none_of hfull]
  show (m.set_slot_resource_counter sl (m.get_slot_resource_counter sl), _) = _
  rw [set_slot_self hwf]

/-- Witness for C4: with the three F1 HARQ resources of the test
configuration all bound at slot 5, a fourth reservation attempt returns
the null descriptor and leaves the manager unchanged. -/
theorem harq_reservation_exhaustion_noop_witness :
    (pucch_resource_manager.reserve_seq pucch_resource_manager.init 5 cfgT
        pucch_format.FORMAT_1 [1, 2, 3]).1.reserve_next_harq_res_available 5 4 cfgT
        pucch_format.FORMAT_1 =
      ((pucch_resource_manager.reserve_seq pucch_resource_manager.init 5 cfgT
        pucch_format.FORMAT_1 [1, 2, 3]).1,
       { pucch_res := none, pucch_res_indicator := 0 }) :=
  harq_reservation_exhaustion_noop _ 5 4 cfgT pucch_format.FORMAT_1
    (by decide) (by decide) (by decide)

open pucch_resource_manager in
/-- C5: release idempotence: a terminal holding an assignment at a slot
has the matching release return true the first time and false on an
immediately repeated second call with the same arguments — for the HARQ
release (the shared F1/F2 helper behind release_harq_f1_resource and
release_harq_f2_resource), for release_sr_resource and for
release_csi_resource — the not-found outcome being a plain boolean
result of the total function, not an error. -/
theorem release_true_then_false
    (m : pucch_resource_manager) (sl_h sl_s sl_c crnti_h crnti_s crnti_c idx : Nat)
    (cfg : pucch_config) (fmt : pucch_format) (ue_cfg : ue_cell_configuration)
    (hwf : m.wf)
    (hgrp : group_start cfg fmt + group_count cfg fmt ≤ MAX_PUCCH_RESOURCES)
    (hin1 : group_start cfg fmt ≤ idx)
    (hin2 : idx < group_start cfg fmt + group_count cfg fmt)
    (hheld : tracker_of crnti_h ((m.get_slot_resource_counter
      sl_h).ues_using_pucch_res.getD idx free_tracker) = true)
    (huniq : ∀ j, group_start cfg fmt ≤ j →
      j < group_start cfg fmt + group_count cfg fmt → j ≠ idx →
      tracker_of crnti_h ((m.get_slot_resource_counter sl_h).ues_using_pucch_res.getD j
        free_tracker) = false)
    (hsr_lt : cfg.sr_res_id < MAX_PUCCH_RESOURCES)
    (hsr_held : tracker_of crnti_s ((m.get_slot_resource_counter
      sl_s).ues_using_pucch_res.getD cfg.sr_res_id free_tracker) = true)
    (hcsi_lt : ue_cfg.csi_res_id < MAX_PUCCH_RESOURCES)
    (hcsi_held : tracker_of crnti_c ((m.get_slot_resource_counter
      sl_c).ues_using_pucch_res.getD ue_cfg.csi_res_id free_tracker) = true) :
    (m.release_harq_resource sl_h crnti_h cfg fmt).2 = true ∧
    ((m.release_harq_resource sl_h crnti_h cfg fmt).1.release_harq_resource sl_h crnti_h
      cfg fmt).2 = false ∧
    (m.release_sr_resource sl_s crnti_s cfg).2 = true ∧
    ((m.release_sr_resource sl_s crnti_s cfg).1.release_sr_resource sl_s crnti_s
      cfg).2 = false ∧
    (m.release_csi_resource sl_c crnti_c ue_cfg).2 = true ∧
    ((m.release_csi_resource sl_c crnti_c ue_cfg).1.release_csi_resource sl_c crnti_c
      ue_cfg).2 = false := by
  have hrwf_h := record_wf_get hwf sl_h
  have hrwf_s := record_wf_get hwf sl_s
  have hrwf_c := record_wf_get hwf sl_c
  have hidx : idx < MAX_PUCCH_RESOURCES := by omega
  have hscan_h : scan_first (m.get_slot_resource_counter sl_h).ues_using_pucch_res
      (tracker_of crnti_h) (group_start cfg fmt) (group_count cfg fmt) = some idx := by
    have hidx_eq : group_start cfg fmt + (idx - group_start cfg fmt) = idx := by omega
    have := @scan_first_eq_some_of ((m.get_slot_resource_counter
        sl_h).ues_using_pucch_res) (tracker_of crnti_h) (group_start cfg fmt)
      (group_count cfg fmt) (idx - group_start cfg fmt)
      (by omega) (by rw [hidx_eq]; exact hheld)
      (fun j hj => huniq _ (by omega) (by omega) (by omega))
    rwa [hidx_eq] at this
  have hrel_h : m.release_harq_resource sl_h crnti_h cfg fmt =
      (m.set_slot_resource_counter sl_h
        { m.get_slot_resource_counter sl_h with
          ues_using_pucch_res := (m.get_slot_resource_counter
            sl_h).ues_using_pucch_res.set idx free_tracker },
       true) := by
    unfold release_harq_resource rnti_pucch_res_id_slot_record.release_harq_resource
    rw [hscan_h]
  have hget_h : ((m.release_harq_resource sl_h crnti_h cfg
      fmt).1.get_slot_resource_counter sl_h).ues_using_pucch_res =
      (m.get_slot_resource_counter sl_h).ues_using_pucch_res.set idx free_tracker := by
    rw [hrel_h, get_set_slot_self hwf]
  have hscan_h2 : scan_first ((m.get_slot_resource_counter
      sl_h).ues_using_pucch_res.set idx free_tracker) (tracker_of crnti_h)
      (group_start cfg fmt) (group_count cfg fmt) = none := by
    apply scan_first_eq_none_of
    intro j hj1 hj2
    by_cases hje : j = idx
    · subst hje
      rw [getD_set_self _ _ _ _ (by rw [hrwf_h.2]; exact hidx)]
      simp [tracker_of, free_tracker]
    · rw [getD_set_ne _ _ _ _ _ (fun h => hje h.symm)]
      exact huniq j hj1 hj2 hje
  have hsr1 : m.release_sr_resource sl_s crnti_s cfg =
      (m.set_slot_resource_counter sl_s
        { m.get_slot_resource_counter sl_s with
          ues_using_pucch_res := (m.get_slot_resource_counter
            sl_s).ues_using_pucch_res.set cfg.sr_res_id free_tracker },
       true) := by
    unfold release_sr_resource rnti_pucch_res_id_slot_record.release_sr_resource
    rw [if_pos hsr_held]
  have hcsi1 : m.release_csi_resource sl_c crnti_c ue_cfg =
      (m.set_slot_resource_counter sl_c
        { m.get_slot_resource_counter sl_c with
          ues_using_pucch_res := (m.get_slot_resource_counter
            sl_c).ues_using_pucch_res.set ue_cfg.csi_res_id free_tracker },
       true) := by
    unfold release_csi_resource rnti_pucch_res_id_slot_record.release_csi_resource
    rw [if_pos hcsi_held]
  refine ⟨by rw [hrel_h], ?_, by rw [hsr1], ?_, by rw [hcsi1], ?_⟩
  · show (((m.release_harq_resource sl_h crnti_h cfg fmt).1.get_slot_resource_counter
        sl_h).release_harq_resource crnti_h cfg fmt).2 = false
    unfold rnti_pucch_res_id_slot_record.release_harq_resource
    rw [hget_h, hscan_h2]
  · show (((m.release_sr_resource sl_s crnti_s cfg).1.get_slot_resource_counter
        sl_s).release_sr_resource crnti_s cfg).2 = false
    unfold rnti_pucch_res_id_slot_record.release_sr_resource
    rw [hsr1, get_set_slot_self hwf]
    rw [if_neg ?hneg]
    case hneg =>
      show ¬ tracker_of crnti_s (((m.get_slot_resource_counter
        sl_s).ues_using_pucch_res.set cfg.sr_res_id free_tracker).getD cfg.sr_res_id
        free_tracker) = true
      rw [getD_set_self _ _ _ _ (by rw [hrwf_s.2]; exact hsr_lt)]
      simp [tracker_of, free_tracker]
  · show (((m.release_csi_resource sl_c crnti_c ue_cfg).1.get_slot_resource_counter
        sl_c).release_csi_resource crnti_c ue_cfg).2 = false
    unfold rnti_pucch_res_id_slot_record.release_csi_resource
    rw [hcsi1, get_set_slot_self hwf]
    rw [if_neg ?hneg2]
    case hneg2 =>
      show ¬ tracker_of crnti_c (((m.get_slot_resource_counter
        sl_c).ues_using_pucch_res.set ue_cfg.csi_res_id free_tracker).getD
        ue_cfg.csi_res_id free_tracker) = true
      rw [getD_set_self _ _ _ _ (by rw [hrwf_c.2]; exact hcsi_lt)]
      simp [tracker_of, free_tracker]

/-- Witness for C5: on a manager holding a HARQ assignment for terminal 7
at slot 3, an SR assignment for terminal 8 at slot 4 and the CSI
assignment for terminal 9 at slot 6, each matching release returns true
and its immediate repetition returns false. -/
theorem release_true_then_false_witness :
    (mRel.release_harq_resource 3 7 cfgT pucch_format.FORMAT_1).2 = true ∧
    ((mRel.release_harq_resource 3 7 cfgT pucch_format.FORMAT_1).1.release_harq_resource
      3 7 cfgT pucch_format.FORMAT_1).2 = false ∧
    (mRel.release_sr_resource 4 8 cfgT).2 = true ∧
    ((mRel.release_sr_resource 4 8 cfgT).1.release_sr_resource 4 8 cfgT).2 = false ∧
    (mRel.release_csi_resource 6 9 ueCfgT).2 = true ∧
    ((mRel.release_csi_resource 6 9 ueCfgT).1.release_csi_resource 6 9 ueCfgT).2 = false :=
  release_true_then_false mRel 3 4 6 7 8 9 0 cfgT pucch_format.FORMAT_1 ueCfgT
    (by decide) (by decide) (by decide) (by decide) (by decide) (by decide)
    (by decide) (by decide) (by decide) (by decide)

open pucch_resource_manager in
/-- C9: common-resource reservation is an unconditional bitmap set: for a
slot of the valid window and an index below the 16-entry bound it is
defined and succeeds on every state — in particular when the resource is
already reserved, where it silently overwrites: repeating the
reservation leaves the ledger exactly as one reservation did, with no
error — and afterwards is_common_resource_available reports false. -/
theorem common_reservation_unconditional
    (m : pucch_resource_manager) (sl r_pucch : Nat)
    (hwf : m.wf) (hvalid : m.valid_slot sl)
    (hidx : r_pucch < MAX_COMMON_PUCCH_RESOURCES) :
    (m.reserve_common_resource sl r_pucch).is_common_resource_available sl r_pucch
      = false ∧
    (m.reserve_common_resource sl r_pucch).reserve_common_resource sl r_pucch =
      m.reserve_common_resource sl r_pucch := by
  constructor
  · show (!(((m.reserve_common_resource sl r_pucch).get_slot_resource_counter
        sl).used_common_resources.getD r_pucch true)) = false
    unfold reserve_common_resource
    rw [get_set_slot_self hwf]
    show (!(((m.get_slot_resource_counter sl).used_common_resources.set r_pucch
        true).getD r_pucch true)) = false
    rw [getD_set_self _ _ _ _ (by rw [(record_wf_get hwf sl).1]; exact hidx)]
    rfl
  · unfold reserve_common_resource
    rw [get_set_slot_self hwf]
    unfold rnti_pucch_res_id_slot_record.reserve_common_resource
      set_slot_resource_counter
    simp [List.set_set]

/-- Witness for C9: reserving common resource 2 at slot 5 makes it report
unavailable, and reserving it again leaves the ledger unchanged. -/
theorem common_reservation_unconditional_witness :
    (pucch_resource_manager.init.reserve_common_resource 5
      2).is_common_resource_available 5 2 = false ∧
    (pucch_resource_manager.init.reserve_common_resource 5 2).reserve_common_resource
        5 2 =
      pucch_resource_manager.init.reserve_common_resource 5 2 :=
  common_reservation_unconditional pucch_resource_manager.init 5 2
    (by decide) (by decide) (by decide)

namespace pucch_resource_manager

theorem advance_last (m : pucch_resource_manager) :
    m.advance.last_sl_ind = m.last_sl_ind + 1 := rfl

theorem advance_slots (m : pucch_resource_manager) :
    m.advance.resource_slots =
      m.resource_slots.set (ring_pos m.last_sl_ind) empty_slot_record := by
  unfold advance slot_indication
  simp

theorem advance_length (m : pucch_resource_manager)
    (hlen : m.resource_slots.length = RES_MANAGER_RING_BUFFER_SIZE) :
    m.advance.resource_slots.length = RES_MANAGER_RING_BUFFER_SIZE := by
  rw [advance_slots, List.length_set, hlen]

theorem advance_preserves_empty (m : pucch_resource_manager) (p : Nat)
    (hlen : m.resource_slots.length = RES_MANAGER_RING_BUFFER_SIZE)
    (hp : m.resource_slots.getD p empty_slot_record = empty_slot_record) :
    m.advance.resource_slots.getD p empty_slot_record = empty_slot_record := by
  rw [advance_slots]
  by_cases hpe : ring_pos m.last_sl_ind = p
  · subst hpe
    exact getD_set_self _ _ _ _ (by rw [hlen]; exact ring_pos_lt _)
  · rw [getD_set_ne _ _ _ _ _ hpe]
    exact hp

theorem advance_n_preserves_empty (n : Nat) :
    ∀ (m : pucch_resource_manager),
      m.resource_slots.length = RES_MANAGER_RING_BUFFER_SIZE →
    ∀ p, m.resource_slots.getD p empty_slot_record = empty_slot_record →
      (m.advance_n n).resource_slots.getD p empty_slot_record = empty_slot_record := by
  induction n with
  | zero => intro m _ p hp; exact hp
  | succ n ih =>
    intro m hlen p hp
    exact ih m.advance (advance_length m hlen) p (advance_preserves_empty m p hlen hp)

theorem advance_n_cleared (n : Nat) :
    ∀ (m : pucch_resource_manager),
      m.resource_slots.length = RES_MANAGER_RING_BUFFER_SIZE →
    ∀ j, j < n →
      (m.advance_n n).resource_slots.getD
        ((m.last_sl_ind + j) % RES_MANAGER_RING_BUFFER_SIZE) empty_slot_record =
        empty_slot_record := by
  induction n with
  | zero => intro m _ j hj; omega
  | succ n ih =>
    intro m hlen j hj
    show (m.advance.advance_n n).resource_slots.getD _ _ = _
    cases j with
    | zero =>
      apply advance_n_preserves_empty n m.advance (advance_length m hlen)
      rw [advance_slots, Nat.add_zero]
      exact getD_set_self _ _ _ _ (by rw [hlen]; exact ring_pos_lt _)
    | succ j =>
      have h := ih m.advance (advance_length m hlen) j (by omega)
      rw [advance_last] at h
      have harith : m.last_sl_ind + 1 + j = m.last_sl_ind + (j + 1) := by omega
      rwa [harith] at h

theorem ring_coverage (last p : Nat) (hp : p < RES_MANAGER_RING_BUFFER_SIZE) :
    ∃ j, j < RES_MANAGER_RING_BUFFER_SIZE ∧
      (last + j) % RES_MANAGER_RING_BUFFER_SIZE = p := by
  refine ⟨(p + RES_MANAGER_RING_BUFFER_SIZE - last % RES_MANAGER_RING_BUFFER_SIZE) %
      RES_MANAGER_RING_BUFFER_SIZE, Nat.mod_lt _ (by decide), ?_⟩
  unfold RES_MANAGER_RING_BUFFER_SIZE at *
  omega

end pucch_resource_manager

open pucch_resource_manager in
/-- C8: frame property of slot_indication: a call with the next slot
advances the current-slot pointer by exactly one increment and clears
exactly the single ledger entry being recycled (the ring position of the
old current slot), leaving every other ring position's occupancy records
unchanged; hence after advancing slot_indication exactly ring-buffer-size
times every recycled slot's ledger entry — its common bitmap and its
dedicated trackers — reports fully unoccupied. -/
theorem slot_indication_frame
    (m : pucch_resource_manager) (p : Nat) (hwf : m.wf) :
    m.advance.last_sl_ind = m.last_sl_ind + 1 ∧
    m.advance.resource_slots.getD (ring_pos m.last_sl_ind) empty_slot_record =
      empty_slot_record ∧
    (p < RES_MANAGER_RING_BUFFER_SIZE → p ≠ ring_pos m.last_sl_ind →
      m.advance.resource_slots.getD p empty_slot_record =
        m.resource_slots.getD p empty_slot_record) ∧
    ∀ sl, (m.advance_n RES_MANAGER_RING_BUFFER_SIZE).get_slot_resource_counter sl =
      empty_slot_record := by
  refine ⟨rfl, ?_, ?_, ?_⟩
  · rw [advance_slots]
    exact getD_set_self _ _ _ _ (by rw [hwf.1]; exact ring_pos_lt _)
  · intro _ hne
    rw [advance_slots]
    exact getD_set_ne _ _ _ _ _ (fun h => hne h.symm)
  · intro sl
    unfold get_slot_resource_counter
    obtain ⟨j, hj, hpos⟩ := ring_coverage m.last_sl_ind (ring_pos sl) (ring_pos_lt sl)
    rw [show ring_pos sl = (m.last_sl_ind + j) % RES_MANAGER_RING_BUFFER_SIZE from
      hpos.symm]
    exact advance_n_cleared RES_MANAGER_RING_BUFFER_SIZE m hwf.1 j hj

/-- Witness for C8: starting from a manager holding assignments at slots
3, 4 and 6, after exactly ring-buffer-size slot advances the ledger entry
of slot 5 reports fully unoccupied. -/
theorem slot_indication_frame_witness :
    (mRel.advance_n RES_MANAGER_RING_BUFFER_SIZE).get_slot_resource_counter 5 =
      empty_slot_record :=
  (slot_indication_frame mRel 3 (by decide)).2.2.2 5

namespace ue_drx_controller

theorem slot_le_refl (a : Option Nat) : slot_le a a := by
  cases a <;> simp [slot_le]

theorem slot_le_trans {a b c : Option Nat} (h1 : slot_le a b) (h2 : slot_le b c) :
    slot_le a c := by
  cases a <;> cases b <;> cases c <;> simp [slot_le] at * <;> omega

theorem slot_le_slot_max (a : Option Nat) (s : Nat) : slot_le a (slot_max a s) := by
  cases a <;> simp [slot_le, slot_max]

theorem drx_step_monotone (u : ue_drx_controller) (ev : drx_event) :
    slot_le u.active_time_end (u.drx_step ev).active_time_end := by
  cases ev with
  | ev_slot_indication sl => exact slot_le_refl _
  | ev_on_new_pdcch_alloc sl => exact slot_le_slot_max _ _
  | ev_on_con_res_start => exact slot_le_slot_max _ _

theorem drx_run_monotone (evs : List drx_event) :
    ∀ u : ue_drx_controller,
      slot_le u.active_time_end (u.drx_run evs).active_time_end := by
  induction evs with
  | nil => intro u; exact slot_le_refl _
  | cons ev evs ih =>
    intro u
    exact slot_le_trans (drx_step_monotone u ev) (ih (u.drx_step ev))

end ue_drx_controller

open ue_drx_controller in
/-- C6: is_pdcch_enabled returns true exactly when the slot falls inside
the periodic on-duration window (modulo the DRX period) or lies before
active_time_end; when no DRX configuration is supplied it returns true
for every slot through the explicit unconfigured branch.  The operation
is a pure read: it is a function of the controller value returning a
Bool, with no state component in its result. -/
theorem is_pdcch_enabled_characterization (u : ue_drx_controller) (slot : Nat) :
    (u.drx_cfg = none → u.is_pdcch_enabled slot = true) ∧
    (u.drx_cfg ≠ none →
      (u.is_pdcch_enabled slot = true ↔
        in_on_duration_window u slot ∨ before_active_time_end u slot)) := by
  constructor
  · intro h
    unfold is_pdcch_enabled
    rw [h]
  · intro h
    unfold is_pdcch_enabled
    cases hc : u.drx_cfg with
    | none => exact absurd hc h
    | some c =>
      unfold is_active_time in_on_duration_window before_active_time_end
      cases he : u.active_time_end with
      | none => simp [he]
      | some e =>
        simp [he]
        constructor
        · intro hor
          rcases hor with h1 | h1
          · exact Or.inr h1
          · exact Or.inl h1
        · intro hor
          rcases hor with h1 | h1
          · exact Or.inr h1
          · exact Or.inl h1

/-- Witness for C6: the test DRX controller (window [2, 5) of period 10,
no extension) enables PDCCH at slot 3, and the unconfigured controller
enables it everywhere. -/
theorem is_pdcch_enabled_characterization_witness :
    drxT.is_pdcch_enabled 3 = true :=
  ((is_pdcch_enabled_characterization drxT 3).2 (by decide)).mpr (Or.inl (by decide))

open ue_drx_controller in
/-- C7: the DRX extension marker active_time_end is monotonic
non-decreasing across every operation: on_new_pdcch_alloc takes the
maximum of the current marker and slot + inactivity_duration,
on_con_res_start the maximum of the current marker and
current_slot + contention_resolution_timer, slot_indication never resets
the marker, and along any sequence of API events the marker never drops
below a value it previously held. -/
theorem active_time_end_monotone (u : ue_drx_controller) (slot : Nat)
    (evs : List drx_event) :
    (u.on_new_pdcch_alloc slot).active_time_end =
      slot_max u.active_time_end (slot + u.inactivity_dur) ∧
    u.on_con_res_start.active_time_end =
      slot_max u.active_time_end (u.last_slot_ind + u.conres_timer_slots) ∧
    (u.slot_indication slot).active_time_end = u.active_time_end ∧
    slot_le u.active_time_end (u.drx_run evs).active_time_end :=
  ⟨rfl, rfl, rfl, drx_run_monotone evs u⟩

namespace radio_uhd_tx_stream_fsm

theorem uhd_step_non_transmitting {f : radio_uhd_tx_stream_fsm} (ev : uhd_event)
    (h : non_transmitting f.state) :
    non_transmitting (f.uhd_step ev).state := by
  rcases h with h | h <;> cases ev <;>
    simp [uhd_step, transmit_block, async_event_late_underflow,
      async_event_end_of_burst_ack, async_task_stopped, h, non_transmitting]

theorem transmit_block_ignored {f : radio_uhd_tx_stream_fsm} (md : tx_metadata)
    (t : Rat) (h : non_transmitting f.state) :
    (f.transmit_block md t).1 = f ∧ (f.transmit_block md t).2.2 = false := by
  rcases h with h | h <;> simp [transmit_block, h]

theorem uhd_run_non_transmitting (evs : List uhd_event) :
    ∀ f : radio_uhd_tx_stream_fsm, non_transmitting f.state →
      non_transmitting (f.uhd_run evs).state := by
  induction evs with
  | nil => intro f h; exact h
  | cons ev evs ih => intro f h; exact ih _ (uhd_step_non_transmitting ev h)

end radio_uhd_tx_stream_fsm

open radio_uhd_tx_stream_fsm in
/-- C10: once stop() has been called, every subsequent transmit_block call
returns false (the block is ignored and the machine is unchanged), and
the state remains within the non-transmitting set containing WAIT_STOP
and STOPPED under every event — transmit_block,
async_event_late_underflow, async_event_end_of_burst_ack and
async_task_stopped — until init_successful resets the machine to
START_BURST. -/
theorem stopped_stream_stays_stopped (f : radio_uhd_tx_stream_fsm)
    (md0 md : tx_metadata) (t : Rat) (evs : List uhd_event) :
    non_transmitting ((f.stop md0).1.uhd_run evs).state ∧
    (((f.stop md0).1.uhd_run evs).transmit_block md t).2.2 = false ∧
    (((f.stop md0).1.uhd_run evs).transmit_block md t).1 =
      (f.stop md0).1.uhd_run evs ∧
    ((f.stop md0).1.uhd_run evs).init_successful.state = uhd_states.START_BURST := by
  have h0 : non_transmitting (f.stop md0).1.state := Or.inl rfl
  have h1 := uhd_run_non_transmitting evs _ h0
  obtain ⟨h2, h3⟩ := transmit_block_ignored md t h1
  exact ⟨h1, h3, h2, rfl⟩

end srsran
